import Mathlib

/-!
# Verification of the Semrush AI Scorecard data pipeline

A shallow embedding of the data-refresh-and-aggregation pipeline of the
AI Scorecard server (`server.js` and the dashboard components), together
with proofs about its normalization, aggregation and error-handling
behaviour.

Modelling conventions:
* JavaScript numbers are modelled by `JSNum` (`nan`, signed infinity, or a
  finite value represented exactly as a rational); exact decimal values are
  used in place of binary floating point, which is faithful for the small
  decimal inputs these claims are about.
* JavaScript objects used as string-keyed dictionaries are modelled either
  as total functions defaulting to `0` (an absent numeric key read through
  `(acc[k] || 0)` behaves as `0`) or as explicit field lists (`Json.obj`).
* `JSON.parse` and `parseFloat` are host builtins; they are modelled from
  their language specification by executable Lean functions.
* Fallible handlers are modelled as pure functions from the data the
  callback receives (exit code, captured stdout/stderr, current timestamp)
  to the HTTP response they produce.
-/

namespace Scorecard

/-- A JavaScript number: `NaN`, a signed infinity, or a finite value
(represented exactly as a rational). -/
inductive JSNum where
  | nan : JSNum
  | inf (neg : Bool) : JSNum
  | num (q : ℚ) : JSNum
deriving DecidableEq

/-- JavaScript falsiness of a number: `NaN` and `0` are falsy. -/
def JSNum.falsy : JSNum → Bool
  | .nan => true
  | .inf _ => false
  | .num q => q == 0

/-- `true` exactly for finite numbers. -/
def JSNum.isFiniteNum : JSNum → Bool
  | .num _ => true
  | _ => false

/-- `true` exactly for the two infinities. -/
def JSNum.isInf : JSNum → Bool
  | .inf _ => true
  | _ => false

/-- JavaScript `x || d` specialised to numbers: returns `d` when `x` is
falsy (`NaN` or `0`), otherwise `x`. -/
def jsOr (x d : JSNum) : JSNum := if x.falsy then d else x

/-- JavaScript `+` on numbers: `NaN` is absorbing; infinities of opposite
sign add to `NaN`; finite values add exactly. -/
def jsAdd : JSNum → JSNum → JSNum
  | .nan, _ => .nan
  | _, .nan => .nan
  | .inf a, .inf b => if a = b then .inf a else .nan
  | .inf a, .num _ => .inf a
  | .num _, .inf b => .inf b
  | .num a, .num b => .num (a + b)

/-! ## A model of `parseFloat` -/

/-- The whitespace characters `parseFloat` skips (the common ones). -/
def isWS (c : Char) : Bool :=
  c = ' ' || c = '\t' || c = '\n' || c = '\r'

/-- Numeric value of a digit string (most significant first). -/
def digitsVal (ds : List Char) : ℕ :=
  ds.foldl (fun a c => 10 * a + (c.toNat - 48)) 0

/-- Parse an unsigned decimal mantissa (`DecimalDigits [. DecimalDigits]`
or `. DecimalDigits`) from the front of the input; `none` when no digit is
present. Returns the value and the unconsumed rest. -/
def parseDecMantissa (cs : List Char) : Option (ℚ × List Char) :=
  let p := cs.span Char.isDigit
  match p.2 with
  | '.' :: r2 =>
    let f := r2.span Char.isDigit
    if p.1.isEmpty ∧ f.1.isEmpty then none
    else some ((digitsVal p.1 : ℚ) + (digitsVal f.1 : ℚ) / (10 : ℚ) ^ f.1.length, f.2)
  | _ => if p.1.isEmpty then none else some ((digitsVal p.1 : ℚ), p.2)

/-- Parse an optionally signed digit string into an integer exponent;
`0` when no digit is present (the exponent part is then not consumed,
matching `parseFloat`'s longest-valid-prefix rule). -/
def parseSignedDigits (cs : List Char) : Int :=
  match cs with
  | '+' :: r => let d := r.span Char.isDigit
                if d.1.isEmpty then 0 else (digitsVal d.1 : Int)
  | '-' :: r => let d := r.span Char.isDigit
                if d.1.isEmpty then 0 else -(digitsVal d.1 : Int)
  | _ => let d := cs.span Char.isDigit
         if d.1.isEmpty then 0 else (digitsVal d.1 : Int)

/-- Parse the exponent part (`e`/`E` followed by signed digits) if present. -/
def parseExpPart (cs : List Char) : Int :=
  match cs with
  | 'e' :: r => parseSignedDigits r
  | 'E' :: r => parseSignedDigits r
  | _ => 0

/-- Scale a rational by a (possibly negative) power of ten. -/
def applyExp (q : ℚ) (e : Int) : ℚ :=
  if 0 ≤ e then q * (10 : ℚ) ^ e.toNat else q / (10 : ℚ) ^ (-e).toNat

/-- Model of JavaScript `parseFloat`: skip leading whitespace, read an
optional sign, then the longest prefix that is `Infinity` or a decimal
literal with optional exponent; `NaN` when no such prefix exists. Finite
results are exact rationals (no binary rounding). -/
def jsParseFloat (s : String) : JSNum :=
  let cs := s.toList.dropWhile isWS
  let sc : Bool × List Char :=
    match cs with
    | '-' :: r => (true, r)
    | '+' :: r => (false, r)
    | _ => (false, cs)
  if sc.2.take 8 = "Infinity".toList then JSNum.inf sc.1
  else
    match parseDecMantissa sc.2 with
    | none => JSNum.nan
    | some (q, rest) =>
      let v := applyExp q (parseExpPart rest)
      JSNum.num (if sc.1 then -v else v)

/-! ## Board data model and `processMondayData` (`server.js`) -/

/-- One entry of an item's `column_values` (`id` and display `text`;
the text may be `null` upstream, modelled as `none`). -/
structure ColumnValue where
  id : String
  text : Option String
deriving DecidableEq

/-- One raw board item as returned by the board query. -/
structure RawItem where
  id : String
  name : String
  column_values : List ColumnValue
deriving DecidableEq

/-- The `items_page` wrapper of a group. -/
structure ItemsPage where
  items : List RawItem
deriving DecidableEq

/-- One group of the board payload. -/
structure BoardGroup where
  id : String
  title : String
  items_page : ItemsPage
deriving DecidableEq

/-- The board payload; `groups` is `none` when the field is absent. -/
structure BoardData where
  id : String
  name : String
  groups : Option (List BoardGroup)
deriving DecidableEq

/-- One normalized initiative record (`processMondayData`'s output shape). -/
structure Initiative where
  id : String
  name : String
  status : String
  priority : String
  function : String
  team : String
  roi : JSNum
  hoursSaved : String
  externalSpendSaved : String
  complexity : String
  protoDelivDate : String
  goLiveDate : String
deriving DecidableEq

/-- `getColumnValue` of `processMondayData`: find the column by id and
return `column?.text || ''` (absent column or null/empty text give `""`). -/
def getColumnValue (item : RawItem) (columnId : String) : String :=
  match item.column_values.find? (fun cv => cv.id == columnId) with
  | some cv => match cv.text with
    | some t => t
    | none => ""
  | none => ""

/-- The ROI parse of `server.js` line 87:
`roiText ? parseFloat(roiText) : 0`. -/
def parseRoi (roiText : String) : JSNum :=
  if roiText = "" then JSNum.num 0 else jsParseFloat roiText

/-- The per-item normalization inside `processMondayData`'s `map`. -/
def processItem (item : RawItem) : Initiative :=
  let roiText := getColumnValue item "numeric_mkrd11hy"
  { id := item.id
    name := item.name
    status := getColumnValue item "status"
    priority := getColumnValue item "color_mkps7zrr"
    function := getColumnValue item "dropdown_mkrbjyg7"
    team := getColumnValue item "dropdown_mkq1ha1j"
    roi := parseRoi roiText
    hoursSaved := getColumnValue item "text_mkr3b2hk"
    externalSpendSaved := getColumnValue item "text_mkrew80n"
    complexity := getColumnValue item "color_mkpsfh88"
    protoDelivDate := getColumnValue item "date4"
    goLiveDate := getColumnValue item "date_mkpxvzvr" }

/-- `processMondayData` (`server.js` lines 72-104): return `[]` on a
null/undefined payload or a payload without `groups`; otherwise flatten
every group's item page and normalize each item. -/
def processMondayData : Option BoardData → List Initiative
  | none => []
  | some bd =>
    match bd.groups with
    | none => []
    | some groups => (groups.map (fun g => g.items_page.items)).flatten.map processItem

/-! ## The metrics aggregation (`ScorecardDashboard.calculateMetrics`)

The JS status table and the reduce accumulators are plain object
literals, so a bracket read consults the object's own keys and then the
`Object.prototype` chain: reading a key such as `toString` or
`__proto__` on a literal without that own key returns a truthy inherited
value (a built-in method, or the prototype object for `__proto__`), not
`undefined`. The definitions below model that fallthrough. -/

/-- The own property names of `Object.prototype` in Node: a plain object
literal used as a dictionary inherits these, so bracket reads of these
keys return truthy values instead of `undefined`. -/
def protoKeys : List String :=
  ["constructor", "hasOwnProperty", "isPrototypeOf", "propertyIsEnumerable",
   "toLocaleString", "toString", "valueOf", "__defineGetter__",
   "__defineSetter__", "__lookupGetter__", "__lookupSetter__", "__proto__"]

/-- The string an inherited `Object.prototype` value coerces to when
concatenated or used as a property key: V8/Node renders the built-in
methods as `function name() \x7b [native code] \x7d` and the `__proto__`
accessor's value (the prototype object) as `[object Object]`. -/
def protoKeyString (s : String) : String :=
  if s = "__proto__" then "[object Object]"
  else "function " ++ s ++ "() \x7b [native code] \x7d"

/-- The JS property read `statusMapping[s]` in
`ScorecardDashboard.calculateMetrics`: the seven own entries of the
object literal first, then the `Object.prototype` chain, whose truthy
inherited values are represented by the string they coerce to; `none` is
`undefined`. -/
def statusMappingGet (s : String) : Option String :=
  if s = "Backlog" then some "backlog"
  else if s = "Evaluation" then some "inFlight"
  else if s = "Scoping" then some "inFlight"
  else if s = "In Progress" then some "inFlight"
  else if s = "Done" then some "completed"
  else if s = "Closed" then some "completed"
  else if s = "On Hold" then some "onHold"
  else if protoKeys.contains s then some (protoKeyString s)
  else none

/-- `mappedStatus = statusMapping[item.status] || 'other'`: every value
actually found (own entries and inherited ones alike) is truthy, so the
`|| 'other'` fallback fires exactly on `undefined`. -/
def mappedStatus (s : String) : String :=
  (statusMappingGet s).getD "other"

/-- The accumulator object of `calculateMetrics`'s `reduce`: its numeric
keys as a total function defaulting to `0` (an absent key read through
`(acc[k] || 0)` behaves as `0`; the keys this reduce ever reads or
writes — bucket names, `other`, or stringified inherited values — are
never themselves `Object.prototype` property names, so these accesses
never hit the prototype chain), plus the `totalROI` field. -/
structure MetricsObj where
  counts : String → ℕ
  totalROI : JSNum

/-- The all-zero accumulator/result. -/
def emptyMetrics : MetricsObj := ⟨fun _ => 0, JSNum.num 0⟩

/-- One step of `calculateMetrics`'s `reduce`:
`acc[mappedStatus] = (acc[mappedStatus] || 0) + 1` and
`acc.totalROI += item.roi || 0`. -/
def metricsStep (acc : MetricsObj) (item : Initiative) : MetricsObj :=
  { counts := fun k =>
      if k = mappedStatus item.status then acc.counts k + 1 else acc.counts k
    totalROI := jsAdd acc.totalROI (jsOr item.roi (JSNum.num 0)) }

/-- `ScorecardDashboard.calculateMetrics`: zeros when the data is missing
or empty, otherwise the `reduce` over the initiative list. -/
def calculateMetrics : Option (List Initiative) → MetricsObj
  | none => emptyMetrics
  | some l => if l.isEmpty then emptyMetrics else l.foldl metricsStep emptyMetrics

/-- Sum of the counts at the five canonical status-bucket keys. -/
def countsSum (m : MetricsObj) : ℕ :=
  m.counts "backlog" + m.counts "inFlight" + m.counts "completed"
    + m.counts "onHold" + m.counts "other"

/-- The rational value of a finite roi (`0` for `NaN`/infinite). -/
def roiQ (i : Initiative) : ℚ :=
  match i.roi with
  | .num q => q
  | _ => 0

/-! ## The `/api/metrics` aggregations (`server.js` lines 233-245) -/

/-- The department key of one initiative: `item.function || 'Other'`
(the `function` field is always a string, so only `""` is falsy). -/
def deptKey (i : Initiative) : String :=
  if i.function = "" then "Other" else i.function

/-- A value stored at an own key of the `departmentCounts` accumulator:
a number, or (after `+ 1` concatenated onto a truthy inherited method) a
string. -/
inductive JSCell where
  | num (n : ℕ) : JSCell
  | str (s : String) : JSCell
deriving DecidableEq

/-- The JS property read `acc[dept]` on the accumulator object literal:
the own key when present, else the truthy inherited `Object.prototype`
value (represented by its string coercion), else `undefined` (`none`). -/
def deptGet (acc : String → Option JSCell) (k : String) : Option JSCell :=
  match acc k with
  | some v => some v
  | none => if protoKeys.contains k then some (.str (protoKeyString k)) else none

/-- `(x || 0)` on the read value: `undefined`, `0` and `""` are falsy and
give `0`; everything else passes through. -/
def deptOrZero : Option JSCell → JSCell
  | none => .num 0
  | some (.num n) => .num n
  | some (.str s) => if s = "" then .num 0 else .str s

/-- JS `x + 1`: numeric increment on a number, string concatenation on a
string. -/
def jsPlusOne : JSCell → JSCell
  | .num n => .num (n + 1)
  | .str s => .str (s ++ "1")

/-- The JS property write `acc[dept] = v`: writing `__proto__` invokes
the inherited accessor's setter, which silently ignores a non-object
value (all values written here are numbers or strings), so the object is
unchanged; any other key becomes an own property. -/
def deptSet (acc : String → Option JSCell) (k : String) (v : JSCell) :
    String → Option JSCell :=
  if k = "__proto__" then acc
  else fun k2 => if k2 = k then some v else acc k2

/-- One step of the `departmentCounts` reduce (`server.js` lines
240-241): `acc[item.function || 'Other'] = (acc[...] || 0) + 1`. -/
def deptStep (acc : String → Option JSCell) (item : Initiative) :
    String → Option JSCell :=
  deptSet acc (deptKey item) (jsPlusOne (deptOrZero (deptGet acc (deptKey item))))

/-- `departmentCounts` of the `/api/metrics` handler: the `reduce`
starting from the empty object literal `{}` (no own keys). -/
def departmentCounts (l : List Initiative) : String → Option JSCell :=
  l.foldl deptStep (fun _ => none)

/-- `totalROI` of the `/api/metrics` handler:
`processedData.reduce((sum, item) => sum + (item.roi || 0), 0)`. -/
def totalROIServer (l : List Initiative) : JSNum :=
  l.foldl (fun sum item => jsAdd sum (jsOr item.roi (JSNum.num 0))) (JSNum.num 0)

/-! ## A JSON value model and a model of `JSON.parse` -/

/-- A JSON value. Objects keep their fields as an ordered list. -/
inductive Json where
  | null : Json
  | bool (b : Bool) : Json
  | num (q : ℚ) : Json
  | str (s : String) : Json
  | arr (elems : List Json) : Json
  | obj (fields : List (String × Json)) : Json

/-- Member access `j[k]` on a JSON value: the field's value when `j` is an
object with key `k`, `none` (JavaScript `undefined`) otherwise. -/
def Json.getField : Json → String → Option Json
  | .obj fs, k => (fs.find? (fun p => p.1 == k)).map (fun p => p.2)
  | _, _ => none

/-- The keys of a JSON object (empty for non-objects). -/
def Json.keys : Json → List String
  | .obj fs => fs.map (fun p => p.1)
  | _ => []

/-- Whether evaluating `j.k.m` throws in JavaScript: member access on
`undefined` or `null` throws, so it does exactly when `j[k]` is absent
(including `j` not an object) or null. -/
def memberThrows (j : Json) (k : String) : Bool :=
  match j.getField k with
  | none => true
  | some .null => true
  | some _ => false

/-- JSON whitespace (space, tab, line feed, carriage return). -/
def skipJsonWS (cs : List Char) : List Char :=
  cs.dropWhile (fun c => c = ' ' || c = '\t' || c = '\n' || c = '\r')

/-- Hexadecimal digit test for `\u` escapes. -/
def isHexDigitC (c : Char) : Bool :=
  ('0' ≤ c && c ≤ '9') || ('a' ≤ c && c ≤ 'f') || ('A' ≤ c && c ≤ 'F')

/-- Value of a hexadecimal digit. -/
def hexVal (c : Char) : ℕ :=
  if '0' ≤ c && c ≤ '9' then c.toNat - 48
  else if 'a' ≤ c && c ≤ 'f' then c.toNat - 87
  else c.toNat - 55

/-- Parse the body of a JSON string (after the opening quote), decoding
escapes; `none` on an unterminated string or invalid escape. -/
def parseJsonStr : List Char → Option (String × List Char)
  | [] => none
  | '"' :: rest => some ("", rest)
  | '\\' :: e :: rest =>
    match e with
    | '"' => (parseJsonStr rest).map (fun p => (String.mk ('"' :: p.1.toList), p.2))
    | '\\' => (parseJsonStr rest).map (fun p => (String.mk ('\\' :: p.1.toList), p.2))
    | '/' => (parseJsonStr rest).map (fun p => (String.mk ('/' :: p.1.toList), p.2))
    | 'b' => (parseJsonStr rest).map (fun p => (String.mk ('\x08' :: p.1.toList), p.2))
    | 'f' => (parseJsonStr rest).map (fun p => (String.mk ('\x0c' :: p.1.toList), p.2))
    | 'n' => (parseJsonStr rest).map (fun p => (String.mk ('\n' :: p.1.toList), p.2))
    | 'r' => (parseJsonStr rest).map (fun p => (String.mk ('\r' :: p.1.toList), p.2))
    | 't' => (parseJsonStr rest).map (fun p => (String.mk ('\t' :: p.1.toList), p.2))
    | 'u' =>
      match rest with
      | a :: b :: c :: d :: rest2 =>
        if isHexDigitC a && isHexDigitC b && isHexDigitC c && isHexDigitC d then
          let n := ((hexVal a * 16 + hexVal b) * 16 + hexVal c) * 16 + hexVal d
          (parseJsonStr rest2).map (fun p => (String.mk (Char.ofNat n :: p.1.toList), p.2))
        else none
      | _ => none
    | _ => none
  | c :: rest => (parseJsonStr rest).map (fun p => (String.mk (c :: p.1.toList), p.2))

/-- Parse a JSON number (` -? int frac? exp? `); `none` when the input
does not start with a valid JSON number. -/
def parseJsonNum (cs : List Char) : Option (ℚ × List Char) :=
  let sn : Bool × List Char :=
    match cs with
    | '-' :: r => (true, r)
    | _ => (false, cs)
  let ip := sn.2.span Char.isDigit
  if ip.1.isEmpty then none
  else if ip.1.length > 1 ∧ ip.1.head? = some '0' then none
  else
    let withFrac : Option (ℚ × List Char) :=
      match ip.2 with
      | '.' :: r2 =>
        let fp := r2.span Char.isDigit
        if fp.1.isEmpty then none
        else some ((digitsVal ip.1 : ℚ) + (digitsVal fp.1 : ℚ) / (10 : ℚ) ^ fp.1.length, fp.2)
      | _ => some ((digitsVal ip.1 : ℚ), ip.2)
    match withFrac with
    | none => none
    | some (q, rest) =>
      match rest with
      | 'e' :: r | 'E' :: r =>
        let se : Bool × List Char :=
          match r with
          | '+' :: r2 => (false, r2)
          | '-' :: r2 => (true, r2)
          | _ => (false, r)
        let ed := se.2.span Char.isDigit
        if ed.1.isEmpty then none
        else
          let e : Int := if se.1 then -(digitsVal ed.1 : Int) else (digitsVal ed.1 : Int)
          some (applyExp (if sn.1 then -q else q) e, ed.2)
      | _ => some ((if sn.1 then -q else q), rest)

mutual

/-- Parse one JSON value from the front of the input (fuel-bounded). -/
def parseJsonVal : ℕ → List Char → Option (Json × List Char)
  | 0, _ => none
  | fuel + 1, cs =>
    match skipJsonWS cs with
    | 'n' :: r => if r.take 3 = ['u', 'l', 'l'] then some (.null, r.drop 3) else none
    | 't' :: r => if r.take 3 = ['r', 'u', 'e'] then some (.bool true, r.drop 3) else none
    | 'f' :: r => if r.take 4 = ['a', 'l', 's', 'e'] then some (.bool false, r.drop 4) else none
    | '"' :: r => (parseJsonStr r).map (fun p => (.str p.1, p.2))
    | '[' :: r =>
      match skipJsonWS r with
      | ']' :: r2 => some (.arr [], r2)
      | r2 => (parseJsonElems fuel r2).map (fun p => (.arr p.1, p.2))
    | '{' :: r =>
      match skipJsonWS r with
      | '}' :: r2 => some (.obj [], r2)
      | r2 => (parseJsonFields fuel r2).map (fun p => (.obj p.1, p.2))
    | c :: r =>
      if c = '-' || c.isDigit then (parseJsonNum (c :: r)).map (fun p => (.num p.1, p.2))
      else none
    | [] => none

/-- Parse a nonempty comma-separated list of array elements up to `]`. -/
def parseJsonElems : ℕ → List Char → Option (List Json × List Char)
  | 0, _ => none
  | fuel + 1, cs =>
    match parseJsonVal fuel cs with
    | none => none
    | some (v, rest) =>
      match skipJsonWS rest with
      | ',' :: r2 => (parseJsonElems fuel r2).map (fun p => (v :: p.1, p.2))
      | ']' :: r2 => some ([v], r2)
      | _ => none

/-- Parse a nonempty comma-separated list of object fields up to `}`. -/
def parseJsonFields : ℕ → List Char → Option (List (String × Json) × List Char)
  | 0, _ => none
  | fuel + 1, cs =>
    match skipJsonWS cs with
    | '"' :: r =>
      match parseJsonStr r with
      | none => none
      | some (k, rest) =>
        match skipJsonWS rest with
        | ':' :: r2 =>
          match parseJsonVal fuel r2 with
          | none => none
          | some (v, rest2) =>
            match skipJsonWS rest2 with
            | ',' :: r3 => (parseJsonFields fuel r3).map (fun p => ((k, v) :: p.1, p.2))
            | '}' :: r3 => some ([(k, v)], r3)
            | _ => none
        | _ => none
    | _ => none

end

/-- Model of `JSON.parse`: parse one value and require only whitespace to
remain; `none` models the `SyntaxError` throw. -/
def jsonParse (s : String) : Option Json :=
  match parseJsonVal (s.length + 1) s.toList with
  | some (v, rest) => if (skipJsonWS rest).isEmpty then some v else none
  | none => none

/-! ## HTTP handlers -/

/-- An HTTP response: status code and JSON body. -/
structure HttpResponse where
  status : ℕ
  body : Json

/-- JavaScript `x || d` on an optional/possibly-empty string
(`process.env` reads): the default when absent or empty. -/
def jsOrStr (x : Option String) (d : String) : String :=
  match x with
  | some s => if s = "" then d else s
  | none => d

/-- The `/api/health` handler (`server.js` lines 125-131), as a function
of the current timestamp and the `NODE_ENV` environment variable. -/
def healthHandler (now : String) (nodeEnv : Option String) : Json :=
  Json.obj [("status", .str "healthy"),
            ("timestamp", .str now),
            ("environment", .str (jsOrStr nodeEnv "development"))]

/-- Whether a JSON value is an object whose key set is exactly the given
list (each expected key present, no extra keys). -/
def hasExactlyFields (j : Json) (ks : List String) : Bool :=
  match j with
  | .obj fs => ks.all (fun k => (fs.map (fun p => p.1)).contains k)
      && fs.all (fun p => ks.contains p.1)
  | _ => false

/-- The 503 body of the cached `/api/gemini/usage` handler
(`server.js` lines 190-197); `details` is
`pythonError || 'Python script execution failed'` and `code` is the raw
exit code (`null` when the process was killed by a signal). -/
def unavailableBody (code : Option Int) (pythonError now : String) : Json :=
  Json.obj [("error", .str "Gemini data service unavailable"),
            ("message", .str "Failed to fetch live Gemini analytics data"),
            ("details", .str (if pythonError = "" then "Python script execution failed"
                              else pythonError)),
            ("code", match code with
                     | some c => .num (c : ℚ)
                     | none => .null),
            ("timestamp", .str now),
            ("data_source", .str "Service unavailable - no fallback data")]

/-- The 500 parse-error body of the cached handler (`server.js` lines
201-206). The `message` field carries the host exception's text, which is
engine-defined; it is modelled as a fixed placeholder since nothing
inspects it. -/
def parseErrorBodyCached (pythonOutput pythonError : String) : Json :=
  Json.obj [("error", .str "Failed to parse optimized Gemini data"),
            ("message", .str "parse failure"),
            ("python_output", .str pythonOutput),
            ("python_error", .str pythonError)]

/-- The `close` callback of the cached `/api/gemini/usage` handler
(`server.js` lines 178-208): on exit code `0` with nonempty output, parse
the output (the success log line then reads `geminiData.summary.…` and
`geminiData.cache_status.…`, so an absent or null `summary`/`cache_status`
throws and lands in the same catch); any throw yields the 500 parse-error
response; otherwise the 503 unavailable response. -/
def closeHandlerCached (code : Option Int) (pythonOutput pythonError now : String) :
    HttpResponse :=
  if code = some 0 ∧ pythonOutput ≠ "" then
    match jsonParse pythonOutput with
    | some d =>
      if memberThrows d "summary" || memberThrows d "cache_status" then
        ⟨500, parseErrorBodyCached pythonOutput pythonError⟩
      else ⟨200, d⟩
    | none => ⟨500, parseErrorBodyCached pythonOutput pythonError⟩
  else ⟨503, unavailableBody code pythonError now⟩

/-- The zeroed placeholder snapshot of the fallback `/api/gemini/usage`
variant (its `fallbackData` literal): zero summary counts, six zeroed
weekly series entries, an error/`data_source` marker. -/
def fallbackSnapshot (pythonError now : String) : Json :=
  Json.obj [
    ("summary", .obj [("total_cumulative_users", .num 0),
                      ("latest_week_activities", .num 0),
                      ("latest_week_users", .num 0),
                      ("total_weeks_tracked", .num 6)]),
    ("time_series", .obj [
      ("weeks", .arr [.str "Week 1", .str "Week 2", .str "Week 3",
                      .str "Week 4", .str "Week 5", .str "Week 6"]),
      ("cumulative_users", .arr (List.replicate 6 (.num 0))),
      ("weekly_activities", .arr (List.replicate 6 (.num 0))),
      ("weekly_unique_users", .arr (List.replicate 6 (.num 0))),
      ("wow_growth_percent", .arr (List.replicate 5 (.num 0)))]),
    ("latest_week_breakdown", .obj [("actions", .obj []),
                                    ("categories", .obj []),
                                    ("top_users", .arr [])]),
    ("last_updated", .str now),
    ("data_source", .str ("Python script error: " ++
      (if pythonError = "" then "Unknown error" else pythonError))),
    ("error", .bool true)]

/-- The 500 parse-error body of the fallback variant. -/
def parseErrorBodyFallback (pythonOutput pythonError : String) : Json :=
  Json.obj [("error", .str "Failed to parse Gemini data"),
            ("message", .str "parse failure"),
            ("python_output", .str pythonOutput),
            ("python_error", .str pythonError)]

/-- The `close` callback of the fallback `/api/gemini/usage` variant: on
exit code `0` with nonempty output, parse it (the success log reads
`geminiData.summary.…`); any throw yields the 500 parse-error response;
otherwise respond 200 with the zeroed placeholder snapshot. -/
def closeHandlerFallback (code : Option Int) (pythonOutput pythonError now : String) :
    HttpResponse :=
  if code = some 0 ∧ pythonOutput ≠ "" then
    match jsonParse pythonOutput with
    | some d =>
      if memberThrows d "summary" then
        ⟨500, parseErrorBodyFallback pythonOutput pythonError⟩
      else ⟨200, d⟩
    | none => ⟨500, parseErrorBodyFallback pythonOutput pythonError⟩
  else ⟨200, fallbackSnapshot pythonError now⟩

/-- Modelled from the spec: the structural shape of a `UsageSnapshot`
(section 3) — a `summary` object of scalar counts and a `time_series`
object of parallel sequences. Used to compare the handlers' responses
against the spec's snapshot contract. -/
def specUsageSnapshotShape (j : Json) : Bool :=
  (match j.getField "summary" with
   | some (.obj _) => true
   | _ => false)
  && (match j.getField "time_series" with
      | some (.obj _) => true
      | _ => false)

/-- Read a numeric field nested one object deep (`j[k1][k2]`). -/
def getNum2 (j : Json) (k1 k2 : String) : Option ℚ :=
  match j.getField k1 with
  | some inner =>
    match inner.getField k2 with
    | some (.num q) => some q
    | _ => none
  | none => none

/-- Whether the snapshot's zeroable summary counts are all zero. -/
def summaryZeroed (j : Json) : Bool :=
  getNum2 j "summary" "total_cumulative_users" == some 0
  && getNum2 j "summary" "latest_week_activities" == some 0
  && getNum2 j "summary" "latest_week_users" == some 0

/-- Whether the body carries the `error: true` unavailability flag. -/
def errorFlagged (j : Json) : Bool :=
  match j.getField "error" with
  | some (.bool true) => true
  | _ => false

/-- The `error` field's string message, when it is a string. -/
def errorMsg (j : Json) : Option String :=
  match j.getField "error" with
  | some (.str s) => some s
  | _ => none

/-! ## Sample data used by witnesses and counterexamples -/

/-- An initiative record with the given status, function and roi and all
other fields empty, as `processMondayData` produces for an item whose
other columns are missing. -/
def mkInit (status fn : String) (roi : JSNum) : Initiative :=
  { id := "", name := "", status := status, priority := "", function := fn,
    team := "", roi := roi, hoursSaved := "", externalSpendSaved := "",
    complexity := "", protoDelivDate := "", goLiveDate := "" }

/-! ## Aggregation lemmas -/

/-- For a status outside the `Object.prototype` chain, the mapped key is
one of the five canonical bucket keys (table hits give bucket names,
everything else falls to `other`). -/
theorem mappedStatus_mem (s : String) (hs : protoKeys.contains s = false) :
    mappedStatus s
      ∈ (["backlog", "inFlight", "completed", "onHold", "other"] : List String) := by
  unfold mappedStatus statusMappingGet
  simp only [hs]
  split_ifs <;> simp_all

/-- One reduce step bumps exactly the mapped key. -/
theorem counts_metricsStep (acc : MetricsObj) (i : Initiative) (k : String) :
    (metricsStep acc i).counts k
      = if k = mappedStatus i.status then acc.counts k + 1 else acc.counts k := rfl

/-- The fold counts, at every key, the items mapped onto that key. -/
theorem counts_foldl (l : List Initiative) (k : String) :
    ∀ acc, (l.foldl metricsStep acc).counts k
      = acc.counts k + l.countP (fun i => mappedStatus i.status == k) := by
  induction l with
  | nil => intro acc; simp
  | cons i t ih =>
    intro acc
    rw [List.foldl_cons, ih, List.countP_cons]
    by_cases hk : k = mappedStatus i.status
    · have hk2 : (mappedStatus i.status == k) = true := by simp [hk]
      simp only [counts_metricsStep, if_pos hk, hk2, if_pos]
      omega
    · have hk2 : (mappedStatus i.status == k) = false := by
        simp only [beq_eq_false_iff_ne]
        exact fun h => hk h.symm
      simp only [counts_metricsStep, if_neg hk, hk2, if_neg, Bool.false_eq_true,
        not_false_eq_true]
      omega

/-- When the status avoids the prototype chain, each reduce step bumps
one of the five bucket keys, so their sum grows by one. -/
theorem countsSum_metricsStep (acc : MetricsObj) (i : Initiative)
    (hs : protoKeys.contains i.status = false) :
    countsSum (metricsStep acc i) = countsSum acc + 1 := by
  have hm := mappedStatus_mem i.status hs
  simp only [List.mem_cons, List.not_mem_nil, or_false] at hm
  rcases hm with h | h | h | h | h <;>
    · simp [countsSum, counts_metricsStep, h]
      omega

/-- When no status hits the prototype chain, the fold adds the list
length to the bucket-count sum. -/
theorem countsSum_foldl (l : List Initiative)
    (hs : ∀ i ∈ l, protoKeys.contains i.status = false) :
    ∀ acc, countsSum (l.foldl metricsStep acc) = countsSum acc + l.length := by
  induction l with
  | nil => intro acc; simp
  | cons i t ih =>
    intro acc
    rw [List.foldl_cons, List.length_cons,
      ih (fun j hj => hs j (List.mem_cons_of_mem _ hj)),
      countsSum_metricsStep acc i (hs i (by simp))]
    omega

/-- The reduce step updates the running ROI total with `item.roi || 0`. -/
theorem totalROI_metricsStep (acc : MetricsObj) (i : Initiative) :
    (metricsStep acc i).totalROI = jsAdd acc.totalROI (jsOr i.roi (JSNum.num 0)) := rfl

/-- `x || 0` is the identity on finite numbers. -/
theorem jsOr_num_zero (r : ℚ) : jsOr (JSNum.num r) (JSNum.num 0) = JSNum.num r := by
  by_cases h : r = 0
  · simp [jsOr, JSNum.falsy, h]
  · simp [jsOr, JSNum.falsy, h]

/-- On a finite roi, one reduce step adds its rational value exactly. -/
theorem totalROI_step_finite (acc : MetricsObj) (i : Initiative) (q : ℚ)
    (hacc : acc.totalROI = JSNum.num q) (hi : i.roi.isFiniteNum = true) :
    (metricsStep acc i).totalROI = JSNum.num (q + roiQ i) := by
  obtain ⟨r, hr⟩ : ∃ r, i.roi = JSNum.num r := by
    cases hroi : i.roi <;> simp [JSNum.isFiniteNum, hroi] at hi ⊢
  rw [totalROI_metricsStep, hacc, hr, jsOr_num_zero]
  simp [jsAdd, roiQ, hr]

/-- Over finite rois the fold computes the exact rational sum. -/
theorem totalROI_foldl_finite (l : List Initiative) :
    ∀ acc q, (∀ i ∈ l, i.roi.isFiniteNum = true) → acc.totalROI = JSNum.num q →
      (l.foldl metricsStep acc).totalROI = JSNum.num (q + (l.map roiQ).sum) := by
  induction l with
  | nil => intro acc q _ hacc; simpa using hacc
  | cons i t ih =>
    intro acc q hfin hacc
    rw [List.foldl_cons]
    have hstep := totalROI_step_finite acc i q hacc (hfin i (by simp))
    have := ih (metricsStep acc i) (q + roiQ i)
      (fun j hj => hfin j (List.mem_cons_of_mem _ hj)) hstep
    rw [this, List.map_cons, List.sum_cons]
    ring_nf

/-- A step on a non-infinite roi keeps the running total finite
(`NaN` summands are replaced by `0` by `|| 0`). -/
theorem jsAdd_keeps_finite (x : JSNum) (r : JSNum)
    (hx : x.isFiniteNum = true) (hr : r.isInf = false) :
    (jsAdd x (jsOr r (JSNum.num 0))).isFiniteNum = true := by
  obtain ⟨a, ha⟩ : ∃ a, x = JSNum.num a := by
    cases hx2 : x <;> simp [JSNum.isFiniteNum, hx2] at hx ⊢
  subst ha
  cases r with
  | nan => simp [jsOr, JSNum.falsy, jsAdd, JSNum.isFiniteNum]
  | inf b => simp [JSNum.isInf] at hr
  | num q => rw [jsOr_num_zero]; simp [jsAdd, JSNum.isFiniteNum]

/-- Over non-infinite rois the `/api/metrics` ROI reduce stays finite. -/
theorem totalROIServer_foldl (l : List Initiative) :
    ∀ acc : JSNum, acc.isFiniteNum = true → (∀ i ∈ l, i.roi.isInf = false) →
      (l.foldl (fun sum item => jsAdd sum (jsOr item.roi (JSNum.num 0))) acc).isFiniteNum
        = true := by
  induction l with
  | nil => intro acc hacc _; simpa using hacc
  | cons i t ih =>
    intro acc hacc hinf
    rw [List.foldl_cons]
    exact ih _ (jsAdd_keeps_finite acc i.roi hacc (hinf i (by simp)))
      (fun j hj => hinf j (List.mem_cons_of_mem _ hj))

/-- Over non-infinite rois the dashboard fold's total stays finite. -/
theorem metrics_totalROI_foldl_noInf (l : List Initiative) :
    ∀ acc : MetricsObj, acc.totalROI.isFiniteNum = true → (∀ i ∈ l, i.roi.isInf = false) →
      ((l.foldl metricsStep acc).totalROI).isFiniteNum = true := by
  induction l with
  | nil => intro acc hacc _; simpa using hacc
  | cons i t ih =>
    intro acc hacc hinf
    rw [List.foldl_cons]
    refine ih _ ?_ (fun j hj => hinf j (List.mem_cons_of_mem _ hj))
    rw [totalROI_metricsStep]
    exact jsAdd_keeps_finite _ _ hacc (hinf i (by simp))

/-- A count as the accumulator object stores it: the key is absent
before the first hit, then holds the number. -/
def cellOfCount (n : ℕ) : Option JSCell :=
  if n = 0 then none else some (JSCell.num n)

/-- A step on its own (non-prototype) department key increments the
stored count, reading the absent key as `0`. -/
theorem deptStep_self (acc : String → Option JSCell) (i : Initiative)
    (hk : protoKeys.contains (deptKey i) = false) (n : ℕ)
    (hacc : acc (deptKey i) = cellOfCount n) :
    (deptStep acc i) (deptKey i) = some (JSCell.num (n + 1)) := by
  have hkp : deptKey i ≠ "__proto__" := by
    intro he
    rw [he] at hk
    simp [protoKeys] at hk
  have hk2 : deptKey i ∉ protoKeys := by simpa using hk
  have hval : jsPlusOne (deptOrZero (deptGet acc (deptKey i))) = JSCell.num (n + 1) := by
    by_cases hn : n = 0
    · rw [cellOfCount, if_pos hn] at hacc
      rw [hn]
      simp [deptGet, hacc, hk2, deptOrZero, jsPlusOne]
    · rw [cellOfCount, if_neg hn] at hacc
      simp [deptGet, hacc, deptOrZero, jsPlusOne]
  unfold deptStep deptSet
  rw [if_neg hkp, hval]
  simp

/-- A step on a different department key leaves the cell unchanged (also
when the step's own key is `__proto__` and the write is a no-op). -/
theorem deptStep_other (acc : String → Option JSCell) (i : Initiative) (k : String)
    (hd : deptKey i ≠ k) :
    (deptStep acc i) k = acc k := by
  by_cases hp : deptKey i = "__proto__"
  · simp [deptStep, deptSet, hp]
  · have hd2 : ¬(k = deptKey i) := fun h => hd h.symm
    simp [deptStep, deptSet, hp, hd2]

/-- At a key outside the prototype chain, the department fold stores
exactly the item count for that key (absent while the count is zero). -/
theorem deptStep_foldl (l : List Initiative) (k : String)
    (hk : protoKeys.contains k = false) :
    ∀ (acc : String → Option JSCell) (n : ℕ), acc k = cellOfCount n →
      (l.foldl deptStep acc) k
        = cellOfCount (n + l.countP (fun i => deptKey i == k)) := by
  induction l with
  | nil => intro acc n hacc; simpa using hacc
  | cons i t ih =>
    intro acc n hacc
    rw [List.foldl_cons]
    by_cases hd : deptKey i = k
    · have hb : (deptKey i == k) = true := by simp [hd]
      have hstep : (deptStep acc i) k = some (JSCell.num (n + 1)) := by
        rw [← hd] at hacc ⊢
        exact deptStep_self acc i (hd ▸ hk) n hacc
      have hrec := ih (deptStep acc i) (n + 1)
        (by rw [hstep, cellOfCount, if_neg (Nat.succ_ne_zero n)])
      rw [hrec, List.countP_cons, hb, if_pos rfl]
      congr 1
      omega
    · have hb : (deptKey i == k) = false := by
        simp only [beq_eq_false_iff_ne]
        exact hd
      have hstep : (deptStep acc i) k = acc k := deptStep_other acc i k hd
      have hrec := ih (deptStep acc i) n (by rw [hstep]; exact hacc)
      rw [hrec, List.countP_cons, hb]
      simp

/-! ## Claim theorems -/

/-- A board payload whose single item has the ROI column text `"abc"`. -/
def malformedRoiBoard : BoardData :=
  { id := "8875778436", name := "AI Initiatives"
    groups := some [
      { id := "g1", title := "Group 1"
        items_page := { items := [
          { id := "1", name := "Item A"
            column_values := [{ id := "numeric_mkrd11hy", text := some "abc" }] }] } }] }

/-- C1 counterexample: an item whose ROI column text is the malformed
string `"abc"` is normalized to roi `NaN` (from `parseFloat`), not `0`,
refuting "parsing yields a number that is exactly 0 when the text is
missing or malformed; the parsed roi value is never NaN". -/
theorem roi_malformed_counterexample :
    (processMondayData (some malformedRoiBoard)).map Initiative.roi = [JSNum.nan] ∧
    JSNum.nan ≠ JSNum.num 0 := by
  decide

/-- C1 (amended): parsing yields exactly `0` when the ROI text is missing
or empty; a non-empty text that `parseFloat` cannot parse yields `NaN` in
the item's roi field (the aggregation's `|| 0` later substitutes `0` for
it); the normalization itself is total and never throws. -/
theorem roi_missing_zero_malformed_nan (t : String)
    (hne : t ≠ "") (hmal : jsParseFloat t = JSNum.nan) :
    parseRoi "" = JSNum.num 0 ∧
    parseRoi t = JSNum.nan ∧
    jsOr (parseRoi t) (JSNum.num 0) = JSNum.num 0 := by
  have hp : parseRoi t = JSNum.nan := by
    rw [parseRoi, if_neg hne, hmal]
  exact ⟨rfl, hp, by rw [hp]; rfl⟩

/-- C1 witness: the amended claim at the concrete malformed text `"abc"`. -/
theorem roi_missing_zero_malformed_nan_witness :
    ("abc" : String) ≠ "" ∧
    jsParseFloat "abc" = JSNum.nan ∧
    (parseRoi "" = JSNum.num 0 ∧
     parseRoi "abc" = JSNum.nan ∧
     jsOr (parseRoi "abc") (JSNum.num 0) = JSNum.num 0) :=
  ⟨by decide, by decide, roi_missing_zero_malformed_nan "abc" (by decide) (by decide)⟩

/-- C2 counterexample: an initiative whose status is the
`Object.prototype` property name `toString` is counted under the
stringified inherited method — `statusMapping['toString']` is truthy, so
`|| 'other'` never fires — and the five status-bucket counts sum to `0`
for this one-item input, not to its length `1`. -/
theorem aggregate_countsSum_counterexample :
    countsSum (calculateMetrics (some [mkInit "toString" "" (JSNum.num 0)])) = 0 ∧
    ([mkInit "toString" "" (JSNum.num 0)] : List Initiative).length = 1 ∧
    (calculateMetrics (some [mkInit "toString" "" (JSNum.num 0)])).counts
      "function toString() \x7b [native code] \x7d" = 1 := by
  decide

/-- C2 (amended): for every input sequence of Initiative with finite
rois whose statuses are not `Object.prototype` property names,
aggregation is total (all-zero result on empty or missing input), the
five status-bucket counts sum to the input length, and `totalROI` is
exactly the rational sum of the rois; a status that is an inherited
property name is counted under the stringified inherited value instead
of a bucket, and the bucket sum then falls short of the length. -/
theorem aggregate_counts_and_totals (l : List Initiative)
    (hs : ∀ i ∈ l, protoKeys.contains i.status = false)
    (h : ∀ i ∈ l, i.roi.isFiniteNum = true) :
    calculateMetrics none = emptyMetrics ∧
    calculateMetrics (some []) = emptyMetrics ∧
    countsSum (calculateMetrics (some l)) = l.length ∧
    (calculateMetrics (some l)).totalROI = JSNum.num ((l.map roiQ).sum) := by
  refine ⟨rfl, rfl, ?_, ?_⟩
  · cases l with
    | nil => rfl
    | cons i t =>
      show countsSum ((i :: t).foldl metricsStep emptyMetrics) = _
      rw [countsSum_foldl (i :: t) hs]
      simp [countsSum, emptyMetrics]
  · cases l with
    | nil => rfl
    | cons i t =>
      show ((i :: t).foldl metricsStep emptyMetrics).totalROI = _
      rw [totalROI_foldl_finite (i :: t) emptyMetrics 0 h rfl, zero_add]

/-- C2 witness: the amended aggregation contract at a concrete two-item
input (statuses `Backlog` and `Done`, rois `100` and `0`). -/
theorem aggregate_counts_and_totals_witness :
    (∀ i ∈ [mkInit "Backlog" "" (JSNum.num 100), mkInit "Done" "" (JSNum.num 0)],
      protoKeys.contains i.status = false) ∧
    (∀ i ∈ [mkInit "Backlog" "" (JSNum.num 100), mkInit "Done" "" (JSNum.num 0)],
      i.roi.isFiniteNum = true) ∧
    (calculateMetrics none = emptyMetrics ∧
     calculateMetrics (some []) = emptyMetrics ∧
     countsSum (calculateMetrics (some [mkInit "Backlog" "" (JSNum.num 100),
       mkInit "Done" "" (JSNum.num 0)])) =
       [mkInit "Backlog" "" (JSNum.num 100), mkInit "Done" "" (JSNum.num 0)].length ∧
     (calculateMetrics (some [mkInit "Backlog" "" (JSNum.num 100),
       mkInit "Done" "" (JSNum.num 0)])).totalROI =
       JSNum.num (([mkInit "Backlog" "" (JSNum.num 100),
         mkInit "Done" "" (JSNum.num 0)].map roiQ).sum)) :=
  ⟨by decide, by decide, aggregate_counts_and_totals _ (by decide) (by decide)⟩

/-- C4 counterexample: `toString` is absent from the mapping table, yet
`statusMapping['toString']` finds the truthy inherited
`Object.prototype.toString`, so `|| 'other'` is suppressed and an
initiative with that status is counted under the stringified method —
the `other` bucket stays at `0`. -/
theorem statusMapping_proto_counterexample :
    ("toString" : String) ∉ (["Backlog", "Evaluation", "Scoping", "In Progress",
      "Done", "Closed", "On Hold"] : List String) ∧
    mappedStatus "toString" ≠ "other" ∧
    (calculateMetrics (some [mkInit "toString" "" (JSNum.num 0)])).counts "other" = 0 ∧
    (calculateMetrics (some [mkInit "toString" "" (JSNum.num 0)])).counts
      "function toString() \x7b [native code] \x7d" = 1 := by
  decide

/-- C4 (amended): the status mapping follows the fixed table
(Backlog→backlog; Evaluation, Scoping, In Progress→inFlight; Done,
Closed→completed; On Hold→onHold); a string absent from the table that
is not an `Object.prototype` property name maps to `other`; and at every
key the aggregation counts exactly the initiatives mapped onto that key
(statuses that are inherited property names land on the stringified
inherited value's key, not on `other`). -/
theorem statusMapping_canonical (l : List Initiative) (s : String)
    (h : s ∉ (["Backlog", "Evaluation", "Scoping", "In Progress",
               "Done", "Closed", "On Hold"] : List String))
    (hp : protoKeys.contains s = false) :
    mappedStatus "Backlog" = "backlog" ∧
    mappedStatus "Evaluation" = "inFlight" ∧
    mappedStatus "Scoping" = "inFlight" ∧
    mappedStatus "In Progress" = "inFlight" ∧
    mappedStatus "Done" = "completed" ∧
    mappedStatus "Closed" = "completed" ∧
    mappedStatus "On Hold" = "onHold" ∧
    mappedStatus s = "other" ∧
    (∀ k, (calculateMetrics (some l)).counts k
      = l.countP (fun i => mappedStatus i.status == k)) := by
  simp only [List.mem_cons, List.not_mem_nil, or_false, not_or] at h
  obtain ⟨h1, h2, h3, h4, h5, h6, h7⟩ := h
  refine ⟨rfl, rfl, rfl, rfl, rfl, rfl, rfl, ?_, ?_⟩
  · have hp2 : s ∉ protoKeys := by simpa using hp
    unfold mappedStatus statusMappingGet
    simp [h1, h2, h3, h4, h5, h6, h7, hp2]
  · intro k
    cases l with
    | nil => rfl
    | cons i t =>
      show ((i :: t).foldl metricsStep emptyMetrics).counts k = _
      rw [counts_foldl]
      simp [emptyMetrics]

/-- C4 witness: the mapping table and per-key counts at the concrete
Scenario-1 input plus the unmapped, non-prototype status `"Mystery"`. -/
theorem statusMapping_canonical_witness :
    (("Mystery" : String) ∉ (["Backlog", "Evaluation", "Scoping", "In Progress",
      "Done", "Closed", "On Hold"] : List String) ∧
     protoKeys.contains "Mystery" = false) ∧
    (mappedStatus "Backlog" = "backlog" ∧
     mappedStatus "Evaluation" = "inFlight" ∧
     mappedStatus "Scoping" = "inFlight" ∧
     mappedStatus "In Progress" = "inFlight" ∧
     mappedStatus "Done" = "completed" ∧
     mappedStatus "Closed" = "completed" ∧
     mappedStatus "On Hold" = "onHold" ∧
     mappedStatus "Mystery" = "other" ∧
     (∀ k, (calculateMetrics
         (some [mkInit "Backlog" "" (JSNum.num 100), mkInit "Done" "" (JSNum.num 0)])).counts k
       = [mkInit "Backlog" "" (JSNum.num 100),
          mkInit "Done" "" (JSNum.num 0)].countP (fun i => mappedStatus i.status == k))) :=
  ⟨⟨by decide, by decide⟩,
   statusMapping_canonical _ "Mystery" (by decide) (by decide)⟩

/-- C3 counterexample: in the primary (cached) server variant, a process
exit with status 1 yields a 503 error response — an
`error: Gemini data service unavailable` body that is not a structurally
valid UsageSnapshot — so `fetchUsageSnapshot` does fail outward there,
refuting the claim as stated for that variant. -/
theorem usage_unavailable_counterexample :
    (closeHandlerCached (some 1) "" "script failed" "2025-01-01T00:00:00.000Z").status
      = 503 ∧
    specUsageSnapshotShape
      (closeHandlerCached (some 1) "" "script failed" "2025-01-01T00:00:00.000Z").body
      = false ∧
    errorMsg (closeHandlerCached (some 1) "" "script failed" "2025-01-01T00:00:00.000Z").body
      = some "Gemini data service unavailable" := by
  exact ⟨rfl, rfl, rfl⟩

/-- C3 (amended): when the process exits non-zero (or produces no
output, as on a timeout kill), the fallback server variant responds 200
with a structurally valid UsageSnapshot whose summary metrics are zeroed
and whose `error` flag marks it unavailable, without raising; the primary
(cached) server variant instead surfaces a 503 error response. -/
theorem usage_nonzero_exit_fallback (code : Option Int) (po pe now : String)
    (h : ¬(code = some 0 ∧ po ≠ "")) :
    (closeHandlerFallback code po pe now).status = 200 ∧
    specUsageSnapshotShape (closeHandlerFallback code po pe now).body = true ∧
    summaryZeroed (closeHandlerFallback code po pe now).body = true ∧
    errorFlagged (closeHandlerFallback code po pe now).body = true ∧
    (closeHandlerCached code po pe now).status = 503 := by
  unfold closeHandlerFallback closeHandlerCached
  rw [if_neg h, if_neg h]
  exact ⟨rfl, rfl, rfl, rfl, rfl⟩

/-- C3 witness: the amended claim at exit status 1 (Scenario 2). -/
theorem usage_nonzero_exit_fallback_witness :
    ¬((some 1 : Option Int) = some 0 ∧ ("" : String) ≠ "") ∧
    ((closeHandlerFallback (some 1) "" "boom" "t").status = 200 ∧
     specUsageSnapshotShape (closeHandlerFallback (some 1) "" "boom" "t").body = true ∧
     summaryZeroed (closeHandlerFallback (some 1) "" "boom" "t").body = true ∧
     errorFlagged (closeHandlerFallback (some 1) "" "boom" "t").body = true ∧
     (closeHandlerCached (some 1) "" "boom" "t").status = 503) :=
  ⟨by decide, usage_nonzero_exit_fallback (some 1) "" "boom" "t" (by decide)⟩

/-- C5: on a zero exit whose nonempty stdout fails to parse as JSON, both
server variants respond 500 with a parse-error body — a contract-violation
error surfaced to the caller — which is distinct from the respective
non-zero-exit result (the cached variant's 503 unavailable response, the
fallback variant's 200 placeholder snapshot). -/
theorem parse_failure_contract_violation (po pe now : String)
    (hne : po ≠ "") (hbad : jsonParse po = none) :
    (closeHandlerCached (some 0) po pe now).status = 500 ∧
    errorMsg (closeHandlerCached (some 0) po pe now).body
      = some "Failed to parse optimized Gemini data" ∧
    (closeHandlerCached (some 1) po pe now).status = 503 ∧
    (closeHandlerCached (some 0) po pe now).status
      ≠ (closeHandlerCached (some 1) po pe now).status ∧
    (closeHandlerFallback (some 0) po pe now).status = 500 ∧
    errorMsg (closeHandlerFallback (some 0) po pe now).body
      = some "Failed to parse Gemini data" ∧
    (closeHandlerFallback (some 0) po pe now).status
      ≠ (closeHandlerFallback (some 1) po pe now).status := by
  have hc : (closeHandlerCached (some 0) po pe now)
      = ⟨500, parseErrorBodyCached po pe⟩ := by
    unfold closeHandlerCached
    rw [if_pos ⟨rfl, hne⟩, hbad]
  have hf : (closeHandlerFallback (some 0) po pe now)
      = ⟨500, parseErrorBodyFallback po pe⟩ := by
    unfold closeHandlerFallback
    rw [if_pos ⟨rfl, hne⟩, hbad]
  have hc1 : (closeHandlerCached (some 1) po pe now).status = 503 := by
    unfold closeHandlerCached
    rw [if_neg (by simp)]
  have hf1 : (closeHandlerFallback (some 1) po pe now).status = 200 := by
    unfold closeHandlerFallback
    rw [if_neg (by simp)]
  refine ⟨by rw [hc], by rw [hc]; rfl, hc1, ?_, by rw [hf], by rw [hf]; rfl, ?_⟩
  · rw [hc, hc1]; simp
  · rw [hf, hf1]; simp

/-- C5 witness: Scenario 3 — exit 0 with stdout `"not json"`. -/
theorem parse_failure_contract_violation_witness :
    ("not json" : String) ≠ "" ∧
    jsonParse "not json" = none ∧
    ((closeHandlerCached (some 0) "not json" "" "t").status = 500 ∧
     errorMsg (closeHandlerCached (some 0) "not json" "" "t").body
       = some "Failed to parse optimized Gemini data" ∧
     (closeHandlerCached (some 1) "not json" "" "t").status = 503 ∧
     (closeHandlerCached (some 0) "not json" "" "t").status
       ≠ (closeHandlerCached (some 1) "not json" "" "t").status ∧
     (closeHandlerFallback (some 0) "not json" "" "t").status = 500 ∧
     errorMsg (closeHandlerFallback (some 0) "not json" "" "t").body
       = some "Failed to parse Gemini data" ∧
     (closeHandlerFallback (some 0) "not json" "" "t").status
       ≠ (closeHandlerFallback (some 1) "not json" "" "t").status) :=
  ⟨by decide, rfl, parse_failure_contract_violation "not json" "" "t" (by decide) rfl⟩

/-- A board payload with one item whose function column is empty and one
whose function column is `"IT"` (Scenario 4). -/
def deptBoard : BoardData :=
  { id := "8875778436", name := "AI Initiatives"
    groups := some [
      { id := "g1", title := "Group 1"
        items_page := { items := [
          { id := "1", name := "Item A"
            column_values := [{ id := "dropdown_mkrbjyg7", text := some "" }] },
          { id := "2", name := "Item B"
            column_values := [{ id := "dropdown_mkrbjyg7", text := some "IT" }] }] } }] }

/-- C7 counterexample: for the function value `toString`, the read
`acc['toString']` finds the truthy inherited `Object.prototype.toString`
method, so `(acc[dept] || 0) + 1` string-concatenates and the stored
value is a garbage string, not the item count `1` — the non-empty value
is not "counted under its own key". -/
theorem departmentCounts_proto_counterexample :
    departmentCounts [mkInit "" "toString" (JSNum.num 0)] "toString"
      = some (JSCell.str "function toString() \x7b [native code] \x7d1") ∧
    departmentCounts [mkInit "" "toString" (JSNum.num 0)] "toString"
      ≠ some (JSCell.num 1) := by
  decide

/-- C7 (amended): at every key that is not an `Object.prototype`
property name, `departmentCounts` stores exactly the count of
initiatives whose `item.function || 'Other'` equals that key (the key is
absent while the count is zero) — empty functions bucket under the
literal `"Other"`, other non-prototype values under themselves — and the
Scenario-4 payload (function values `""` and `"IT"`) yields
`Other ↦ 1, IT ↦ 1`; a function value that is an inherited property name
instead hits the truthy inherited value and `+ 1` concatenates a garbage
string. -/
theorem departmentCounts_other_bucket (l : List Initiative) (k : String)
    (hk : protoKeys.contains k = false) :
    departmentCounts l k = cellOfCount (l.countP (fun i => deptKey i == k)) ∧
    (∀ i : Initiative, i.function = "" → deptKey i = "Other") ∧
    (∀ i : Initiative, i.function ≠ "" → deptKey i = i.function) ∧
    departmentCounts (processMondayData (some deptBoard)) "Other"
      = some (JSCell.num 1) ∧
    departmentCounts (processMondayData (some deptBoard)) "IT"
      = some (JSCell.num 1) := by
  refine ⟨?_, ?_, ?_, by decide, by decide⟩
  · have := deptStep_foldl l k hk (fun _ => none) 0 rfl
    simpa [departmentCounts] using this
  · intro i hi
    simp [deptKey, hi]
  · intro i hi
    simp [deptKey, hi]

/-- C7 witness: the amended claim at the key `"IT"` for a one-item input
with function value `"IT"`. -/
theorem departmentCounts_other_bucket_witness :
    protoKeys.contains "IT" = false ∧
    (departmentCounts [mkInit "" "IT" (JSNum.num 0)] "IT"
       = cellOfCount ([mkInit "" "IT" (JSNum.num 0)].countP (fun i => deptKey i == "IT")) ∧
     (∀ i : Initiative, i.function = "" → deptKey i = "Other") ∧
     (∀ i : Initiative, i.function ≠ "" → deptKey i = i.function) ∧
     departmentCounts (processMondayData (some deptBoard)) "Other"
       = some (JSCell.num 1) ∧
     departmentCounts (processMondayData (some deptBoard)) "IT"
       = some (JSCell.num 1)) :=
  ⟨by decide, departmentCounts_other_bucket [mkInit "" "IT" (JSNum.num 0)] "IT" (by decide)⟩

/-- C8 counterexample: the health handler's body has the three fields
`status`, `timestamp`, `environment`, so its key set is not exactly
`{status, timestamp}`, refuting "the response body is a JSON object with
exactly those fields". -/
theorem health_shape_counterexample :
    hasExactlyFields (healthHandler "2025-01-01T00:00:00.000Z" none)
      ["status", "timestamp"] = false ∧
    Json.keys (healthHandler "2025-01-01T00:00:00.000Z" none)
      = ["status", "timestamp", "environment"] := by
  exact ⟨by decide, rfl⟩

/-- C8 (amended): for every request, the health handler responds with a
JSON object with exactly the fields `status`, `timestamp` and
`environment` (the liveness shape plus the environment field). -/
theorem health_shape_three_fields (now : String) (nodeEnv : Option String) :
    hasExactlyFields (healthHandler now nodeEnv)
      ["status", "timestamp", "environment"] = true ∧
    Json.keys (healthHandler now nodeEnv) = ["status", "timestamp", "environment"] :=
  ⟨rfl, rfl⟩

/-- A board payload whose two items have the ROI column texts
`"Infinity"` and `"-Infinity"`. -/
def infinityRoiBoard : BoardData :=
  { id := "8875778436", name := "AI Initiatives"
    groups := some [
      { id := "g1", title := "Group 1"
        items_page := { items := [
          { id := "1", name := "Item A"
            column_values := [{ id := "numeric_mkrd11hy", text := some "Infinity" }] },
          { id := "2", name := "Item B"
            column_values := [{ id := "numeric_mkrd11hy", text := some "-Infinity" }] }] } }] }

/-- C9 counterexample: `(item.roi || 0)` substitutes `0` only for the
falsy `NaN`; infinities pass through, and ROI texts `"Infinity"` and
`"-Infinity"` parse to the two infinities whose sum is `NaN`, so the
metrics `totalROI` (both the server reduce and the dashboard fold) is
`NaN` on this board payload, refuting "totalROI is never NaN". -/
theorem totalROI_nan_counterexample :
    totalROIServer (processMondayData (some infinityRoiBoard)) = JSNum.nan ∧
    (calculateMetrics (some (processMondayData (some infinityRoiBoard)))).totalROI
      = JSNum.nan := by
  decide

/-- C9 (amended): whenever no initiative's roi is an infinity — in
particular when rois are `NaN` or finite — the aggregated `totalROI` is
never `NaN`, because each summand is taken as `(item.roi || 0)`, which
substitutes `0` for the falsy `NaN` before adding; this holds for the
`/api/metrics` reduce and the dashboard fold alike. -/
theorem totalROI_not_nan_without_inf (l : List Initiative)
    (h : ∀ i ∈ l, i.roi.isInf = false) :
    totalROIServer l ≠ JSNum.nan ∧
    (calculateMetrics (some l)).totalROI ≠ JSNum.nan := by
  constructor
  · have := totalROIServer_foldl l (JSNum.num 0) rfl h
    intro hn
    rw [totalROIServer] at hn
    rw [hn] at this
    simp [JSNum.isFiniteNum] at this
  · cases l with
    | nil => intro hn; simp [calculateMetrics, emptyMetrics] at hn
    | cons i t =>
      have := metrics_totalROI_foldl_noInf (i :: t) emptyMetrics rfl h
      intro hn
      have he : calculateMetrics (some (i :: t))
          = (i :: t).foldl metricsStep emptyMetrics := rfl
      rw [he] at hn
      rw [hn] at this
      simp [JSNum.isFiniteNum] at this

/-- C9 witness: the amended claim at a one-item input whose roi is `NaN`. -/
theorem totalROI_not_nan_without_inf_witness :
    (∀ i ∈ [mkInit "Backlog" "" JSNum.nan], i.roi.isInf = false) ∧
    (totalROIServer [mkInit "Backlog" "" JSNum.nan] ≠ JSNum.nan ∧
     (calculateMetrics (some [mkInit "Backlog" "" JSNum.nan])).totalROI ≠ JSNum.nan) :=
  ⟨by decide, totalROI_not_nan_without_inf _ (by decide)⟩

/-- C10: `processMondayData` is total on degenerate payloads — a
null/undefined board payload, or one whose `groups` field is absent,
yields the empty initiative list rather than a throw. -/
theorem processMondayData_degenerate (bd : BoardData) (h : bd.groups = none) :
    processMondayData none = [] ∧ processMondayData (some bd) = [] := by
  refine ⟨rfl, ?_⟩
  obtain ⟨i, n, g⟩ := bd
  have hg : g = none := h
  subst hg
  rfl

/-- C10 witness: the degenerate-payload behaviour at a concrete board
value without groups. -/
theorem processMondayData_degenerate_witness :
    (BoardData.mk "8875778436" "AI Initiatives" none).groups = none ∧
    (processMondayData none = [] ∧
     processMondayData (some (BoardData.mk "8875778436" "AI Initiatives" none)) = []) :=
  ⟨rfl, processMondayData_degenerate (BoardData.mk "8875778436" "AI Initiatives" none) rfl⟩

end Scorecard
